import Mathlib

/-! Verification of the rule-engine and diagnostics subsystem of the
`sql-rules` schema-linting engine: the validated diagnostic builder and its
display rendering, the error taxonomy, the rule registry and fail-fast
schema traversal (`Constrainer::validate_schema`), and the two duplicate
detection algorithms (sort-then-scan-adjacent for check constraints and
unique indices, signature-hash matching for foreign keys). -/

namespace SqlRules

/-! Entity model. The engine is generic over the external `sql_traits`
capability contract (`DatabaseLike`, `TableLike`, `ColumnLike`,
`ForeignKeyLike`, `CheckConstraintLike`, `UniqueIndexLike`). We embed it
shallowly as concrete structures carrying exactly the data that the
embedded rules read through those interfaces. A foreign key references its
target table by name, and its host/referenced column sequences are kept in
declaration order, as the iterators of the contract yield them. -/

/-- A column of a table; `column_name` embeds `ColumnLike::column_name`. -/
structure Column where
  column_name : String
deriving DecidableEq

/-- A foreign key: host columns (declaration order), referenced table
identity, referenced columns (declaration order), as exposed by
`ForeignKeyLike::host_columns`, `referenced_table`, `referenced_columns`. -/
structure ForeignKey where
  host_columns : List Column
  referenced_table : String
  referenced_columns : List Column
deriving DecidableEq

/-- A check constraint; `expression` embeds the canonical expression string
returned by `CheckConstraintLike::expression`. -/
structure CheckConstraint where
  expression : String
deriving DecidableEq

/-- A unique index; `expression` embeds `UniqueIndexLike::expression`, the
canonical string listing the indexed columns. -/
structure UniqueIndex where
  expression : String
deriving DecidableEq

/-- A table, carrying the collections and flags the embedded rules read:
`TableLike::table_name`, `columns`, `foreign_keys`, `check_constraints`,
`unique_indices`, `policies` and `has_row_level_security`. -/
structure Table where
  table_name : String
  columns : List Column
  foreign_keys : List ForeignKey
  check_constraints : List CheckConstraint
  unique_indices : List UniqueIndex
  policies : List String
  has_row_level_security : Bool
deriving DecidableEq

/-- A database: `DatabaseLike::tables`. -/
structure Database where
  tables : List Table
deriving DecidableEq

/-! Diagnostic model, from `src/error/rule_error_info.rs` and its builder
submodule, plus the parallel `ConstraintErrorInfo` generation from
`src/error/constraint_error_info/builder.rs`. -/

/-- Embeds Rust `char::is_whitespace`: the Unicode White_Space property —
tab, line feed, vertical tab, form feed, carriage return, space, next line,
no-break space, ogham space mark, the U+2000..U+200A spaces, line and
paragraph separators, narrow no-break space, medium mathematical space, and
ideographic space. -/
def rustIsWhitespace (c : Char) : Bool :=
  c.toNat = 0x09 || c.toNat = 0x0A || c.toNat = 0x0B || c.toNat = 0x0C ||
    c.toNat = 0x0D || c.toNat = 0x20 || c.toNat = 0x85 || c.toNat = 0xA0 ||
    c.toNat = 0x1680 || (0x2000 ≤ c.toNat && c.toNat ≤ 0x200A) ||
    c.toNat = 0x2028 || c.toNat = 0x2029 || c.toNat = 0x202F ||
    c.toNat = 0x205F || c.toNat = 0x3000

/-- Embeds Rust `str::trim().is_empty()`, the emptiness test used by every
builder setter: a string trims to the empty string exactly when every one of
its characters has the Unicode White_Space property that `str::trim` strips. -/
def trimEmpty (s : String) : Bool := s.data.all rustIsWhitespace

/-- The immutable diagnostic record `RuleErrorInfo` from
`src/error/rule_error_info.rs`. -/
structure RuleErrorInfo where
  rule : String
  object : String
  message : String
  resolution : Option String
deriving DecidableEq

/-- `RuleErrorInfoBuilderError` from `src/error/rule_error_info/builder.rs`. -/
inductive RuleErrorInfoBuilderError where
  | MissingAttribute (attr : String)
  | EmptyRule
  | EmptyMessage
  | EmptyObject
  | EmptyResolution
deriving DecidableEq

/-- `RuleErrorInfoBuilder` from `src/error/rule_error_info/builder.rs`: four
optional fields, all starting unset (`derive(Default)`). -/
structure RuleErrorInfoBuilder where
  rule : Option String
  object : Option String
  message : Option String
  resolution : Option String
deriving DecidableEq

/-- The `Default::default()` builder: every attribute unset. -/
def RuleErrorInfoBuilder.init : RuleErrorInfoBuilder := ⟨none, none, none, none⟩

/-- Embeds `RuleErrorInfoBuilder::rule`: reject an input that trims to
empty with `EmptyRule`, otherwise record it and return the builder. -/
def RuleErrorInfoBuilder.setRule (b : RuleErrorInfoBuilder) (rule : String) :
    Except RuleErrorInfoBuilderError RuleErrorInfoBuilder :=
  if trimEmpty rule then Except.error RuleErrorInfoBuilderError.EmptyRule
  else Except.ok { b with rule := some rule }

/-- Embeds `RuleErrorInfoBuilder::object`. -/
def RuleErrorInfoBuilder.setObject (b : RuleErrorInfoBuilder) (object : String) :
    Except RuleErrorInfoBuilderError RuleErrorInfoBuilder :=
  if trimEmpty object then Except.error RuleErrorInfoBuilderError.EmptyObject
  else Except.ok { b with object := some object }

/-- Embeds `RuleErrorInfoBuilder::message`. -/
def RuleErrorInfoBuilder.setMessage (b : RuleErrorInfoBuilder) (message : String) :
    Except RuleErrorInfoBuilderError RuleErrorInfoBuilder :=
  if trimEmpty message then Except.error RuleErrorInfoBuilderError.EmptyMessage
  else Except.ok { b with message := some message }

/-- Embeds `RuleErrorInfoBuilder::resolution`. -/
def RuleErrorInfoBuilder.setResolution (b : RuleErrorInfoBuilder) (resolution : String) :
    Except RuleErrorInfoBuilderError RuleErrorInfoBuilder :=
  if trimEmpty resolution then Except.error RuleErrorInfoBuilderError.EmptyResolution
  else Except.ok { b with resolution := some resolution }

/-- Embeds `TryFrom<RuleErrorInfoBuilder> for RuleErrorInfo`: the `ok_or`
chain demands `rule`, then `object`, then `message`; `resolution` is passed
through as-is. -/
def RuleErrorInfo.tryFrom (b : RuleErrorInfoBuilder) :
    Except RuleErrorInfoBuilderError RuleErrorInfo :=
  match b.rule with
  | none => Except.error (RuleErrorInfoBuilderError.MissingAttribute "rule")
  | some rule =>
    match b.object with
    | none => Except.error (RuleErrorInfoBuilderError.MissingAttribute "object")
    | some object =>
      match b.message with
      | none => Except.error (RuleErrorInfoBuilderError.MissingAttribute "message")
      | some message =>
        Except.ok { rule := rule, object := object, message := message,
                    resolution := b.resolution }

/-- Embeds `Display for RuleErrorInfo` from `src/error/rule_error_info.rs`:
one `write!` for the three mandatory lines, then a conditional `write!`
appending the resolution line when present. -/
def RuleErrorInfo.display (info : RuleErrorInfo) : String :=
  let s := "Rule: " ++ info.rule ++ "\nObject: " ++ info.object ++
    "\nMessage: " ++ info.message
  match info.resolution with
  | some resolution => s ++ ("\nResolution: " ++ resolution)
  | none => s

/-- The parallel diagnostic record `ConstraintErrorInfo` of the older
`constraints` generation (its builder is `src/error/constraint_error_info/builder.rs`). -/
structure ConstraintErrorInfo where
  constraint : String
  object : String
  message : String
  resolution : Option String
deriving DecidableEq

/-- `ConstraintErrorInfoBuilderError` from
`src/error/constraint_error_info/builder.rs`. -/
inductive ConstraintErrorInfoBuilderError where
  | MissingAttribute (attr : String)
  | EmptyConstraint
  | EmptyMessage
  | EmptyObject
  | EmptyResolution
deriving DecidableEq

/-- `ConstraintErrorInfoBuilder` from
`src/error/constraint_error_info/builder.rs`. -/
structure ConstraintErrorInfoBuilder where
  constraint : Option String
  object : Option String
  message : Option String
  resolution : Option String
deriving DecidableEq

/-- The `Default::default()` constraint-info builder. -/
def ConstraintErrorInfoBuilder.init : ConstraintErrorInfoBuilder := ⟨none, none, none, none⟩

/-- Embeds `ConstraintErrorInfoBuilder::constraint`. -/
def ConstraintErrorInfoBuilder.setConstraint (b : ConstraintErrorInfoBuilder)
    (constraint : String) :
    Except ConstraintErrorInfoBuilderError ConstraintErrorInfoBuilder :=
  if trimEmpty constraint then Except.error ConstraintErrorInfoBuilderError.EmptyConstraint
  else Except.ok { b with constraint := some constraint }

/-- Embeds `ConstraintErrorInfoBuilder::object`. -/
def ConstraintErrorInfoBuilder.setObject (b : ConstraintErrorInfoBuilder) (object : String) :
    Except ConstraintErrorInfoBuilderError ConstraintErrorInfoBuilder :=
  if trimEmpty object then Except.error ConstraintErrorInfoBuilderError.EmptyObject
  else Except.ok { b with object := some object }

/-- Embeds `ConstraintErrorInfoBuilder::message`. -/
def ConstraintErrorInfoBuilder.setMessage (b : ConstraintErrorInfoBuilder) (message : String) :
    Except ConstraintErrorInfoBuilderError ConstraintErrorInfoBuilder :=
  if trimEmpty message then Except.error ConstraintErrorInfoBuilderError.EmptyMessage
  else Except.ok { b with message := some message }

/-- Embeds `ConstraintErrorInfoBuilder::resolution`. -/
def ConstraintErrorInfoBuilder.setResolution (b : ConstraintErrorInfoBuilder)
    (resolution : String) :
    Except ConstraintErrorInfoBuilderError ConstraintErrorInfoBuilder :=
  if trimEmpty resolution then Except.error ConstraintErrorInfoBuilderError.EmptyResolution
  else Except.ok { b with resolution := some resolution }

/-- Embeds `TryFrom<ConstraintErrorInfoBuilder> for ConstraintErrorInfo`:
`constraint`, then `object`, then `message` are demanded, `resolution` is
optional. -/
def ConstraintErrorInfo.tryFrom (b : ConstraintErrorInfoBuilder) :
    Except ConstraintErrorInfoBuilderError ConstraintErrorInfo :=
  match b.constraint with
  | none => Except.error (ConstraintErrorInfoBuilderError.MissingAttribute "constraint")
  | some constraint =>
    match b.object with
    | none => Except.error (ConstraintErrorInfoBuilderError.MissingAttribute "object")
    | some object =>
      match b.message with
      | none => Except.error (ConstraintErrorInfoBuilderError.MissingAttribute "message")
      | some message =>
        Except.ok { constraint := constraint, object := object, message := message,
                    resolution := b.resolution }

/-! Error taxonomy. -/

/-- The error enumeration `Error<DB>` from `src/error.rs`: each violation
variant carries the offending entity (boxed in Rust) together with the
diagnostic produced by the failing rule (the `Box<dyn RuleFailureInformation>`
is always a `RuleErrorInfo` in this crate). -/
inductive Error where
  | Table (table : Table) (info : RuleErrorInfo)
  | Unapplicable (message : String)
  | Column (column : Column) (info : RuleErrorInfo)
  | ForeignKey (fk : ForeignKey) (info : RuleErrorInfo)
deriving DecidableEq

/-- Modelled from the spec: the error enumeration of the older `constraints`
generation (the `crate::error::Error` that `src/constraints/*` and
`src/rules/table_rules/unique_unique_index.rs` construct with
`Error::Table(info)`) is not itself under `src/`; per the spec's error
taxonomy it tags the diagnostic with the offending entity kind, and only the
table-kind variant is exercised by the embedded rules. -/
inductive ConstraintError where
  | Table (info : ConstraintErrorInfo)
deriving DecidableEq

/-- Models Rust `Result::unwrap` on a builder step: the success value, or a
designated poison value standing in for the panic. A separate theorem shows
the poison value is never produced on the paths the rules take. -/
def unwrapOr {ε α : Type} (x : Except ε α) (dflt : α) : α :=
  match x with
  | Except.ok v => v
  | Except.error _ => dflt

/-- Poison stand-in for a panicking `RuleErrorInfo` unwrap. -/
def poisonedRuleInfo : RuleErrorInfo := ⟨"<unreachable>", "<unreachable>", "<unreachable>", none⟩

/-- Poison stand-in for a panicking `ConstraintErrorInfo` unwrap. -/
def poisonedConstraintInfo : ConstraintErrorInfo :=
  ⟨"<unreachable>", "<unreachable>", "<unreachable>", none⟩

/-- The builder call chain every rule uses to assemble a `RuleErrorInfo`
(`RuleErrorInfo::builder().rule(..).unwrap().object(..).unwrap()...`): each
Rust `unwrap` propagates the first builder failure, so the chain is the
left-to-right composition of the fallible setters followed by `try_into`. -/
def buildRuleErrorInfo (rule object message : String) (resolution : Option String) :
    Except RuleErrorInfoBuilderError RuleErrorInfo :=
  match RuleErrorInfoBuilder.init.setRule rule with
  | Except.error e => Except.error e
  | Except.ok b =>
    match b.setObject object with
    | Except.error e => Except.error e
    | Except.ok b =>
      match b.setMessage message with
      | Except.error e => Except.error e
      | Except.ok b =>
        match resolution with
        | none => RuleErrorInfo.tryFrom b
        | some r =>
          match b.setResolution r with
          | Except.error e => Except.error e
          | Except.ok b => RuleErrorInfo.tryFrom b

/-- The analogous builder call chain for `ConstraintErrorInfo`. -/
def buildConstraintErrorInfo (constraint object message : String)
    (resolution : Option String) :
    Except ConstraintErrorInfoBuilderError ConstraintErrorInfo :=
  match ConstraintErrorInfoBuilder.init.setConstraint constraint with
  | Except.error e => Except.error e
  | Except.ok b =>
    match b.setObject object with
    | Except.error e => Except.error e
    | Except.ok b =>
      match b.setMessage message with
      | Except.error e => Except.error e
      | Except.ok b =>
        match resolution with
        | none => ConstraintErrorInfo.tryFrom b
        | some r =>
          match b.setResolution r with
          | Except.error e => Except.error e
          | Except.ok b => ConstraintErrorInfo.tryFrom b

/-! Rule registry and traversal engine, from `src/traits/constrainer.rs` and
`src/traits/constrainer/generic_constrainer.rs`. A rule trait object is
embedded as its validation function. -/

/-- A table rule: `TableRule::validate_table`. -/
abbrev TableRule := Database → Table → Except Error Unit

/-- A column rule: `ColumnRule::validate_column`. -/
abbrev ColumnRule := Database → Column → Except Error Unit

/-- A foreign-key rule: `ForeignKeyRule::validate_foreign_key`. -/
abbrev ForeignKeyRule := Database → ForeignKey → Except Error Unit

/-- `GenericConstrainer`: the three ordered rule collections, in
registration order (`register_*_rule` pushes at the back). -/
structure GenericConstrainer where
  tables : List TableRule
  columns : List ColumnRule
  foreign_keys : List ForeignKeyRule

/-- Embeds `Iterator::try_for_each` as used by the `encounter_*` methods:
apply `f` to each element in order, stopping at and returning the first
error, returning unit success otherwise. -/
def tryForEach {α ε : Type} (l : List α) (f : α → Except ε Unit) : Except ε Unit :=
  match l with
  | [] => Except.ok ()
  | x :: xs =>
    match f x with
    | Except.error e => Except.error e
    | Except.ok _ => tryForEach xs f

/-- `Constrainer::encounter_table`: apply every registered table rule, in
registration order, to the table. -/
def GenericConstrainer.encounter_table (c : GenericConstrainer) (database : Database)
    (table : Table) : Except Error Unit :=
  tryForEach c.tables (fun rule => rule database table)

/-- `Constrainer::encounter_column`. -/
def GenericConstrainer.encounter_column (c : GenericConstrainer) (database : Database)
    (column : Column) : Except Error Unit :=
  tryForEach c.columns (fun rule => rule database column)

/-- `Constrainer::encounter_foreign_key`. -/
def GenericConstrainer.encounter_foreign_key (c : GenericConstrainer) (database : Database)
    (fk : ForeignKey) : Except Error Unit :=
  tryForEach c.foreign_keys (fun rule => rule database fk)

/-- `Constrainer::validate_schema`: for each table of the database, apply
the table rules, then the column rules to each column, then the foreign-key
rules to each foreign key; the `?` operator aborts the whole pass with the
first error. -/
def GenericConstrainer.validate_schema (c : GenericConstrainer) (database : Database) :
    Except Error Unit :=
  tryForEach database.tables (fun table =>
    match c.encounter_table database table with
    | Except.error e => Except.error e
    | Except.ok _ =>
      match tryForEach table.columns (fun column => c.encounter_column database column) with
      | Except.error e => Except.error e
      | Except.ok _ =>
        tryForEach table.foreign_keys (fun fk => c.encounter_foreign_key database fk))

/-! Specification-side description of the traversal, used to state the
refinement claim about `validate_schema`. -/

/-- Written from the specification's words, not from the code: the flat list
of rule applications in the order the spec prescribes — for each table, every
registered table rule in registration order, then for each of the table's
columns every column rule, then for each of its foreign keys every
foreign-key rule. -/
def specRuleApplications (c : GenericConstrainer) (database : Database) :
    List (Except Error Unit) :=
  database.tables.flatMap (fun table =>
    c.tables.map (fun rule => rule database table)
      ++ table.columns.flatMap (fun column => c.columns.map (fun rule => rule database column))
      ++ table.foreign_keys.flatMap (fun fk => c.foreign_keys.map (fun rule => rule database fk)))

/-- Written from the specification's words: the first error of a sequence of
rule-application outcomes, unchanged, or success when none errs. -/
def firstErrorResult {ε : Type} : List (Except ε Unit) → Except ε Unit
  | [] => Except.ok ()
  | Except.error e :: _ => Except.error e
  | Except.ok _ :: rest => firstErrorResult rest

theorem firstErrorResult_append {ε : Type} (l1 l2 : List (Except ε Unit)) :
    firstErrorResult (l1 ++ l2) =
      match firstErrorResult l1 with
      | Except.error e => Except.error e
      | Except.ok _ => firstErrorResult l2 := by
  induction l1 with
  | nil => simp [firstErrorResult]
  | cons x l ih => cases x <;> simp [firstErrorResult, ih]

theorem tryForEach_eq_firstErrorResult {α ε : Type} (l : List α) (f : α → Except ε Unit) :
    tryForEach l f = firstErrorResult (l.map f) := by
  induction l with
  | nil => rfl
  | cons x l ih => cases h : f x <;> simp [tryForEach, firstErrorResult, h, ih]

theorem firstErrorResult_flatMap {α ε : Type} (l : List α) (f : α → List (Except ε Unit)) :
    firstErrorResult (l.flatMap f) =
      firstErrorResult (l.map (fun a => firstErrorResult (f a))) := by
  induction l with
  | nil => rfl
  | cons x l ih =>
    rw [List.flatMap_cons, firstErrorResult_append]
    cases h : firstErrorResult (f x) <;> simp [firstErrorResult, h, ih]

/-- C1: for every database and registry, `validate_schema` visits each table,
applying every registered table rule in registration order, then every column
rule to each column, then every foreign-key rule to each foreign key; the
first failing rule application aborts the call with exactly its error, and if
no application errs the call succeeds. Stated as: `validate_schema` returns
precisely the first error (unchanged) of the spec-ordered flat sequence of
rule applications, success when that sequence has no error. -/
theorem validate_schema_first_error (c : GenericConstrainer) (database : Database) :
    c.validate_schema database = firstErrorResult (specRuleApplications c database) := by
  rw [GenericConstrainer.validate_schema, tryForEach_eq_firstErrorResult,
    specRuleApplications, firstErrorResult_flatMap]
  refine congrArg firstErrorResult
    (congrArg (fun f => List.map f database.tables) (funext fun table => ?_))
  rw [List.append_assoc, firstErrorResult_append, firstErrorResult_append]
  rw [GenericConstrainer.encounter_table, tryForEach_eq_firstErrorResult]
  cases firstErrorResult (c.tables.map fun rule => rule database table) with
  | error e => rfl
  | ok _ =>
    simp only []
    rw [tryForEach_eq_firstErrorResult, firstErrorResult_flatMap]
    have hcol : (fun column => GenericConstrainer.encounter_column c database column) =
        (fun column => firstErrorResult (c.columns.map fun rule => rule database column)) :=
      funext fun column => tryForEach_eq_firstErrorResult _ _
    rw [hcol]
    cases firstErrorResult ((table.columns.map fun column =>
        firstErrorResult (c.columns.map fun rule => rule database column))) with
    | error e => rfl
    | ok _ =>
      simp only []
      rw [tryForEach_eq_firstErrorResult, firstErrorResult_flatMap]
      have hfk : (fun fk => GenericConstrainer.encounter_foreign_key c database fk) =
          (fun fk => firstErrorResult (c.foreign_keys.map fun rule => rule database fk)) :=
        funext fun fk => tryForEach_eq_firstErrorResult _ _
      rw [hfk]

theorem trimEmpty_append (s t : String) :
    trimEmpty (s ++ t) = (trimEmpty s && trimEmpty t) := by
  simp [trimEmpty, String.data_append, List.all_append]

theorem trimEmpty_append_left {s : String} (t : String) (h : trimEmpty s = false) :
    trimEmpty (s ++ t) = false := by
  rw [trimEmpty_append, h, Bool.false_and]

theorem buildRuleErrorInfo_ok (rule object message : String) (resolution : Option String)
    (hr : trimEmpty rule = false) (ho : trimEmpty object = false)
    (hm : trimEmpty message = false)
    (hres : ∀ r, resolution = some r → trimEmpty r = false) :
    buildRuleErrorInfo rule object message resolution =
      Except.ok ⟨rule, object, message, resolution⟩ := by
  cases resolution with
  | none =>
    simp [buildRuleErrorInfo, RuleErrorInfoBuilder.init, RuleErrorInfoBuilder.setRule,
      RuleErrorInfoBuilder.setObject, RuleErrorInfoBuilder.setMessage,
      RuleErrorInfo.tryFrom, hr, ho, hm]
  | some r =>
    simp [buildRuleErrorInfo, RuleErrorInfoBuilder.init, RuleErrorInfoBuilder.setRule,
      RuleErrorInfoBuilder.setObject, RuleErrorInfoBuilder.setMessage,
      RuleErrorInfoBuilder.setResolution, RuleErrorInfo.tryFrom, hr, ho, hm, hres r rfl]

theorem buildConstraintErrorInfo_ok (constraint object message : String)
    (resolution : Option String)
    (hc : trimEmpty constraint = false) (ho : trimEmpty object = false)
    (hm : trimEmpty message = false)
    (hres : ∀ r, resolution = some r → trimEmpty r = false) :
    buildConstraintErrorInfo constraint object message resolution =
      Except.ok ⟨constraint, object, message, resolution⟩ := by
  cases resolution with
  | none =>
    simp [buildConstraintErrorInfo, ConstraintErrorInfoBuilder.init,
      ConstraintErrorInfoBuilder.setConstraint, ConstraintErrorInfoBuilder.setObject,
      ConstraintErrorInfoBuilder.setMessage, ConstraintErrorInfo.tryFrom, hc, ho, hm]
  | some r =>
    simp [buildConstraintErrorInfo, ConstraintErrorInfoBuilder.init,
      ConstraintErrorInfoBuilder.setConstraint, ConstraintErrorInfoBuilder.setObject,
      ConstraintErrorInfoBuilder.setMessage, ConstraintErrorInfoBuilder.setResolution,
      ConstraintErrorInfo.tryFrom, hc, ho, hm, hres r rfl]

/-- C3: each setter of the diagnostic builder fails with its corresponding
Empty error exactly when its input trims to the empty string, and otherwise
returns the builder updated with that field; finalizing fails with
MissingAttribute naming the first unset field among rule, object, message (in
that order), while a builder with those three set finalizes successfully into
the corresponding record regardless of whether resolution was set. -/
theorem builder_setters_and_finalize (b : RuleErrorInfoBuilder) (s : String) :
    (trimEmpty s = true →
      b.setRule s = Except.error RuleErrorInfoBuilderError.EmptyRule ∧
      b.setObject s = Except.error RuleErrorInfoBuilderError.EmptyObject ∧
      b.setMessage s = Except.error RuleErrorInfoBuilderError.EmptyMessage ∧
      b.setResolution s = Except.error RuleErrorInfoBuilderError.EmptyResolution) ∧
    (trimEmpty s = false →
      b.setRule s = Except.ok { b with rule := some s } ∧
      b.setObject s = Except.ok { b with object := some s } ∧
      b.setMessage s = Except.ok { b with message := some s } ∧
      b.setResolution s = Except.ok { b with resolution := some s }) ∧
    (b.rule = none →
      RuleErrorInfo.tryFrom b =
        Except.error (RuleErrorInfoBuilderError.MissingAttribute "rule")) ∧
    (∀ r, b.rule = some r → b.object = none →
      RuleErrorInfo.tryFrom b =
        Except.error (RuleErrorInfoBuilderError.MissingAttribute "object")) ∧
    (∀ r o, b.rule = some r → b.object = some o → b.message = none →
      RuleErrorInfo.tryFrom b =
        Except.error (RuleErrorInfoBuilderError.MissingAttribute "message")) ∧
    (∀ r o m, b.rule = some r → b.object = some o → b.message = some m →
      RuleErrorInfo.tryFrom b = Except.ok ⟨r, o, m, b.resolution⟩) := by
  refine ⟨fun h => ⟨?_, ?_, ?_, ?_⟩, fun h => ⟨?_, ?_, ?_, ?_⟩, fun h => ?_,
    fun r hr hh => ?_, fun r o hr hh hm => ?_, fun r o m hr hh hm => ?_⟩ <;>
    simp_all [RuleErrorInfoBuilder.setRule, RuleErrorInfoBuilder.setObject,
      RuleErrorInfoBuilder.setMessage, RuleErrorInfoBuilder.setResolution,
      RuleErrorInfo.tryFrom]

/-- Witness for C3 at concrete inputs: a whitespace-only rule is rejected —
both for an ASCII space and for a vertical tab, which is White_Space for
`str::trim` though outside the ASCII-space set — and a builder with rule,
object and message set (resolution unset) finalizes into the corresponding
record. -/
theorem builder_setters_and_finalize_witness :
    RuleErrorInfoBuilder.init.setRule " " =
      Except.error RuleErrorInfoBuilderError.EmptyRule ∧
    RuleErrorInfoBuilder.init.setRule "\u000B" =
      Except.error RuleErrorInfoBuilderError.EmptyRule ∧
    RuleErrorInfo.tryFrom ⟨some "R", some "o", some "m", none⟩ =
      Except.ok ⟨"R", "o", "m", none⟩ :=
  ⟨((builder_setters_and_finalize RuleErrorInfoBuilder.init " ").1 (by decide)).1,
    ((builder_setters_and_finalize RuleErrorInfoBuilder.init "\u000B").1 (by decide)).1,
    (builder_setters_and_finalize ⟨some "R", some "o", some "m", none⟩ "x").2.2.2.2.2
      "R" "o" "m" rfl rfl rfl⟩

/-- C8: the Display rendering of a diagnostic is exactly
`Rule: <rule>`, newline, `Object: <object>`, newline, `Message: <message>`,
followed — precisely when a resolution is present — by a newline and
`Resolution: <resolution>`. -/
theorem display_layout (info : RuleErrorInfo) :
    (info.resolution = none →
      info.display = "Rule: " ++ info.rule ++ "\n" ++ "Object: " ++ info.object ++ "\n" ++
        "Message: " ++ info.message) ∧
    (∀ r, info.resolution = some r →
      info.display = "Rule: " ++ info.rule ++ "\n" ++ "Object: " ++ info.object ++ "\n" ++
        "Message: " ++ info.message ++ "\n" ++ "Resolution: " ++ r) := by
  have h1 : ("\nObject: " : String) = "\n" ++ "Object: " := by decide
  have h2 : ("\nMessage: " : String) = "\n" ++ "Message: " := by decide
  have h3 : ("\nResolution: " : String) = "\n" ++ "Resolution: " := by decide
  constructor
  · intro h
    simp only [RuleErrorInfo.display, h, h1, h2, String.append_assoc]
  · intro r h
    simp only [RuleErrorInfo.display, h, h1, h2, h3, String.append_assoc]

/-- Witness for C8 at concrete diagnostics, with and without a resolution. -/
theorem display_layout_witness :
    RuleErrorInfo.display ⟨"R", "o", "m", some "fix"⟩ =
      "Rule: " ++ "R" ++ "\n" ++ "Object: " ++ "o" ++ "\n" ++ "Message: " ++ "m" ++
        "\n" ++ "Resolution: " ++ "fix" ∧
    RuleErrorInfo.display ⟨"R", "o", "m", none⟩ =
      "Rule: " ++ "R" ++ "\n" ++ "Object: " ++ "o" ++ "\n" ++ "Message: " ++ "m" :=
  ⟨(display_layout ⟨"R", "o", "m", some "fix"⟩).2 "fix" rfl,
    (display_layout ⟨"R", "o", "m", none⟩).1 rfl⟩

/-- `PoliciesRequireRowLevelSecurity::validate_table` from
`src/rules/table_rules/policies_require_row_level_security.rs`: if the table
has at least one policy (`policies(database).next().is_some()`) but row level
security is not enabled, build the diagnostic through the (unwrapped) builder
chain and return a Table-variant error carrying the table. -/
def PoliciesRequireRowLevelSecurity.validate_table (_database : Database) (table : Table) :
    Except Error Unit :=
  let has_policies := !table.policies.isEmpty
  let is_rls_enabled := table.has_row_level_security
  if has_policies && !is_rls_enabled then
    Except.error (Error.Table table (unwrapOr (buildRuleErrorInfo
      "PoliciesRequireRowLevelSecurity" table.table_name
      ("Table '" ++ table.table_name ++ "' has policies but RLS is not enabled")
      (some "Enable Row Level Security on the table")) poisonedRuleInfo))
  else
    Except.ok ()

/-- C2: an entity violating exactly one registered rule makes
`validate_schema` return the matching-variant error carrying the offending
entity itself with a diagnostic whose rule field is that rule's static
identifier — instantiated at the cited `PoliciesRequireRowLevelSecurity`
table rule, registered alone, with the violating table the only table of the
schema. The table-name side condition reflects the entity contract that a
table's name is a nonempty identifier (the builder would otherwise refuse the
object field). -/
theorem policies_rule_error_identity (c : GenericConstrainer) (database : Database)
    (table : Table)
    (hreg : c = ⟨[PoliciesRequireRowLevelSecurity.validate_table], [], []⟩)
    (hdb : database.tables = [table])
    (hname : trimEmpty table.table_name = false)
    (hpol : table.policies.isEmpty = false)
    (hrls : table.has_row_level_security = false) :
    ∃ info : RuleErrorInfo,
      PoliciesRequireRowLevelSecurity.validate_table database table =
        Except.error (Error.Table table info) ∧
      info.rule = "PoliciesRequireRowLevelSecurity" ∧
      info.object = table.table_name ∧
      c.validate_schema database = Except.error (Error.Table table info) := by
  have hmsg : trimEmpty ("Table '" ++ table.table_name ++
      "' has policies but RLS is not enabled") = false := by
    rw [String.append_assoc]
    exact trimEmpty_append_left _ (by decide)
  have hbuild := buildRuleErrorInfo_ok "PoliciesRequireRowLevelSecurity" table.table_name
    ("Table '" ++ table.table_name ++ "' has policies but RLS is not enabled")
    (some "Enable Row Level Security on the table") (by decide) hname hmsg
    (fun r hr => by cases hr; decide)
  have hrule : PoliciesRequireRowLevelSecurity.validate_table database table =
      Except.error (Error.Table table ⟨"PoliciesRequireRowLevelSecurity", table.table_name,
        "Table '" ++ table.table_name ++ "' has policies but RLS is not enabled",
        some "Enable Row Level Security on the table"⟩) := by
    simp [PoliciesRequireRowLevelSecurity.validate_table, hpol, hrls, hbuild, unwrapOr]
  refine ⟨_, hrule, rfl, rfl, ?_⟩
  subst hreg
  simp [GenericConstrainer.validate_schema, hdb, tryForEach,
    GenericConstrainer.encounter_table, hrule]

/-- Witness for C2: a concrete single-table schema with a policy but no row
level security, validated against the single registered rule. -/
theorem policies_rule_error_identity_witness :
    ∃ info : RuleErrorInfo,
      PoliciesRequireRowLevelSecurity.validate_table
          ⟨[⟨"users", [], [], [], [], ["p"], false⟩]⟩
          ⟨"users", [], [], [], [], ["p"], false⟩ =
        Except.error (Error.Table ⟨"users", [], [], [], [], ["p"], false⟩ info) ∧
      info.rule = "PoliciesRequireRowLevelSecurity" ∧
      info.object = "users" ∧
      GenericConstrainer.validate_schema
          ⟨[PoliciesRequireRowLevelSecurity.validate_table], [], []⟩
          ⟨[⟨"users", [], [], [], [], ["p"], false⟩]⟩ =
        Except.error (Error.Table ⟨"users", [], [], [], [], ["p"], false⟩ info) :=
  policies_rule_error_identity ⟨[PoliciesRequireRowLevelSecurity.validate_table], [], []⟩
    ⟨[⟨"users", [], [], [], [], ["p"], false⟩]⟩ ⟨"users", [], [], [], [], ["p"], false⟩
    rfl rfl (by decide) rfl rfl

/-! Generic sort-and-scan duplicate detection: the shape shared by the
check-constraint, unique-index and foreign-key uniqueness rules. The Rust
rules call `Vec::sort_unstable_by_key` and then scan `windows(2)` for an
adjacent pair with equal keys; we model the sort as ordered insertion (any
correct comparison sort — the rules' outcomes depend only on sortedness and
permutation of the result, and key ties compare equal) and the window scan as
`firstDupBy`. -/

/-- Ordered insertion by a boolean comparator. -/
def insertByLe {α : Type} (le : α → α → Bool) (a : α) : List α → List α
  | [] => [a]
  | b :: l => if le a b then a :: b :: l else b :: insertByLe le a l

/-- Models `Vec::sort_unstable_by_key` (with `le` comparing keys): a sorted
permutation of the input. -/
def sortByLe {α : Type} (le : α → α → Bool) : List α → List α
  | [] => []
  | a :: l => insertByLe le a (sortByLe le l)

/-- Models the `windows(2)` scan of the sorted list: the first adjacent pair
with equal keys (as the pair), or nothing. -/
def firstDupBy {α β : Type} [DecidableEq β] (key : α → β) : List α → List α
  | a :: b :: l => if key a = key b then [a, b] else firstDupBy key (b :: l)
  | _ => []

theorem insertByLe_perm {α : Type} (le : α → α → Bool) (a : α) (l : List α) :
    (insertByLe le a l).Perm (a :: l) := by
  induction l with
  | nil => exact List.Perm.refl _
  | cons b l ih =>
    by_cases h : le a b = true
    · rw [insertByLe, if_pos h]
    · rw [insertByLe, if_neg h]
      exact (ih.cons b).trans (List.Perm.swap a b l)

theorem sortByLe_perm {α : Type} (le : α → α → Bool) (l : List α) :
    (sortByLe le l).Perm l := by
  induction l with
  | nil => exact List.Perm.refl _
  | cons a l ih => exact (insertByLe_perm le a (sortByLe le l)).trans (ih.cons a)

theorem insertByLe_pairwise {α : Type} {le : α → α → Bool}
    (htot : ∀ x y, le x y = true ∨ le y x = true)
    (htrans : ∀ x y z, le x y = true → le y z = true → le x z = true)
    (a : α) {l : List α} (hl : l.Pairwise (fun x y => le x y = true)) :
    (insertByLe le a l).Pairwise (fun x y => le x y = true) := by
  induction l with
  | nil => simp [insertByLe]
  | cons b l ih =>
    rcases List.pairwise_cons.mp hl with ⟨hb, hl2⟩
    by_cases h : le a b = true
    · rw [insertByLe, if_pos h]
      refine List.pairwise_cons.mpr ⟨?_, hl⟩
      intro x hx
      rcases List.mem_cons.mp hx with rfl | hx2
      · exact h
      · exact htrans a b x h (hb x hx2)
    · rw [insertByLe, if_neg h]
      refine List.pairwise_cons.mpr ⟨?_, ih hl2⟩
      intro x hx
      rcases List.mem_cons.mp ((insertByLe_perm le a l).mem_iff.mp hx) with rfl | hx2
      · rcases htot x b with h1 | h1
        · exact absurd h1 h
        · exact h1
      · exact hb x hx2

theorem sortByLe_pairwise {α : Type} {le : α → α → Bool}
    (htot : ∀ x y, le x y = true ∨ le y x = true)
    (htrans : ∀ x y z, le x y = true → le y z = true → le x z = true)
    (l : List α) : (sortByLe le l).Pairwise (fun x y => le x y = true) := by
  induction l with
  | nil => simp [sortByLe]
  | cons a l ih => exact insertByLe_pairwise htot htrans a ih

theorem firstDupBy_shape {α β : Type} [DecidableEq β] (key : α → β) :
    ∀ l : List α, firstDupBy key l = [] ∨
      ∃ g1 g2, firstDupBy key l = [g1, g2] ∧ key g1 = key g2
  | [] => Or.inl rfl
  | [_] => Or.inl rfl
  | a :: b :: l => by
    by_cases h : key a = key b
    · exact Or.inr ⟨a, b, by rw [firstDupBy, if_pos h], h⟩
    · rw [firstDupBy, if_neg h]
      exact firstDupBy_shape key (b :: l)

theorem sorted_head_not_in_map {α β : Type} [DecidableEq β] {key : α → β}
    {le : β → β → Bool}
    (hanti : ∀ x y, le x y = true → le y x = true → x = y)
    {a b : α} {l : List α}
    (hs : (a :: b :: l).Pairwise (fun x y => le (key x) (key y) = true))
    (hne : key a ≠ key b) :
    key a ∉ (b :: l).map key := by
  intro hmem
  rcases List.mem_map.mp hmem with ⟨x, hx, hkey⟩
  rcases List.pairwise_cons.mp hs with ⟨hhead, htail⟩
  rcases List.mem_cons.mp hx with rfl | hx2
  · exact hne hkey.symm
  · have h2 : le (key b) (key x) = true := (List.pairwise_cons.mp htail).1 x hx2
    have h3 : le (key a) (key b) = true := hhead b (List.mem_cons_self b l)
    rw [hkey] at h2
    exact hne (hanti _ _ h3 h2)

theorem firstDupBy_eq_nil_iff {α β : Type} [DecidableEq β] {key : α → β}
    {le : β → β → Bool}
    (hanti : ∀ x y, le x y = true → le y x = true → x = y) :
    ∀ {l : List α}, l.Pairwise (fun x y => le (key x) (key y) = true) →
      (firstDupBy key l = [] ↔ (l.map key).Nodup) := by
  intro l
  induction l with
  | nil => intro _; simp [firstDupBy]
  | cons a l ih =>
    intro hs
    cases l with
    | nil => simp [firstDupBy]
    | cons b l2 =>
      by_cases h : key a = key b
      · rw [firstDupBy, if_pos h]
        simp only [List.map_cons, List.nodup_cons]
        constructor
        · intro hfalse; exact absurd hfalse (by simp)
        · intro ⟨hna, _⟩
          exact absurd (List.mem_cons_self (key b) _) (h ▸ hna)
      · rw [firstDupBy, if_neg h]
        rw [ih (List.pairwise_cons.mp hs).2]
        have hna : key a ∉ ((b :: l2).map key) := sorted_head_not_in_map hanti hs h
        simp only [List.map_cons, List.nodup_cons] at hna ⊢
        tauto

theorem firstDupBy_min {α β : Type} [DecidableEq β] {key : α → β} {le : β → β → Bool}
    (htot : ∀ x y, le x y = true ∨ le y x = true)
    (hanti : ∀ x y, le x y = true → le y x = true → x = y) :
    ∀ {l : List α}, l.Pairwise (fun x y => le (key x) (key y) = true) →
      ∀ {g1 g2 : α}, firstDupBy key l = [g1, g2] →
        key g1 = key g2 ∧ 2 ≤ ((l.map key).count (key g1)) ∧
          ∀ x, 2 ≤ ((l.map key).count x) → le (key g1) x = true := by
  intro l
  induction l with
  | nil => intro _ g1 g2 hfd; exact absurd hfd (by simp [firstDupBy])
  | cons a l ih =>
    intro hs g1 g2 hfd
    cases l with
    | nil => exact absurd hfd (by simp [firstDupBy])
    | cons b l2 =>
      rcases List.pairwise_cons.mp hs with ⟨hhead, htail⟩
      by_cases h : key a = key b
      · rw [firstDupBy, if_pos h] at hfd
        injection hfd with h1 h2
        injection h2 with h2 _
        subst h1
        subst h2
        refine ⟨h, ?_, ?_⟩
        · rw [List.map_cons, List.map_cons, List.count_cons, List.count_cons]
          simp [h.symm]
        · intro x hx
          have hxpos : 0 < ((a :: b :: l2).map key).count x := by omega
          have hxmem : x ∈ (a :: b :: l2).map key := List.count_pos_iff.mp hxpos
          rcases List.mem_map.mp hxmem with ⟨y, hy, rfl⟩
          rcases List.mem_cons.mp hy with rfl | hy2
          · rcases htot (key y) (key y) with h1 | h1 <;> exact h1
          · exact hhead y hy2
      · rw [firstDupBy, if_neg h] at hfd
        rcases ih htail hfd with ⟨hk, hcount, hmin⟩
        have hna : key a ∉ ((b :: l2).map key) := sorted_head_not_in_map hanti hs h
        have hzero : ((b :: l2).map key).count (key a) = 0 := List.count_eq_zero.mpr hna
        have hne2 : key a ≠ key g1 := by
          intro heq
          rw [← heq] at hcount
          omega
        refine ⟨hk, ?_, ?_⟩
        · rw [List.map_cons, List.count_cons]
          simpa [hne2] using hcount
        · intro x hx
          by_cases hxa : x = key a
          · subst hxa
            rw [List.map_cons, List.count_cons, hzero] at hx
            simp only [beq_self_eq_true, if_true] at hx
            exact absurd hx (by omega)
          · have hxne : ¬ (key a = x) := fun hh => hxa hh.symm
            apply hmin
            rw [List.map_cons, List.count_cons] at hx
            simpa [hxne] using hx

/-- Verdict of sort-and-scan on the original list: no adjacent duplicate in
the sorted order exactly when the keys of the input are pairwise distinct. -/
theorem sortScan_nil_iff {α β : Type} [DecidableEq β] (key : α → β) (le : β → β → Bool)
    (htot : ∀ x y, le x y = true ∨ le y x = true)
    (htrans : ∀ x y z, le x y = true → le y z = true → le x z = true)
    (hanti : ∀ x y, le x y = true → le y x = true → x = y)
    (l : List α) :
    firstDupBy key (sortByLe (fun x y => le (key x) (key y)) l) = [] ↔
      (l.map key).Nodup := by
  have hs := @sortByLe_pairwise _ (fun x y => le (key x) (key y))
    (fun x y => htot (key x) (key y)) (fun x y z => htrans (key x) (key y) (key z)) l
  rw [firstDupBy_eq_nil_iff hanti hs]
  exact ((sortByLe_perm _ l).map key).nodup_iff

/-- The duplicate reported by sort-and-scan has the least key (under `le`)
among all duplicated keys of the input. -/
theorem sortScan_min {α β : Type} [DecidableEq β] (key : α → β) (le : β → β → Bool)
    (htot : ∀ x y, le x y = true ∨ le y x = true)
    (htrans : ∀ x y z, le x y = true → le y z = true → le x z = true)
    (hanti : ∀ x y, le x y = true → le y x = true → x = y)
    (l : List α) {g1 g2 : α}
    (hfd : firstDupBy key (sortByLe (fun x y => le (key x) (key y)) l) = [g1, g2]) :
    key g1 = key g2 ∧ 2 ≤ ((l.map key).count (key g1)) ∧
      ∀ x, 2 ≤ ((l.map key).count x) → le (key g1) x = true := by
  have hs := @sortByLe_pairwise _ (fun x y => le (key x) (key y))
    (fun x y => htot (key x) (key y)) (fun x y z => htrans (key x) (key y) (key z)) l
  have hcnt : ∀ x, ((sortByLe (fun x y => le (key x) (key y)) l).map key).count x =
      ((l.map key).count x) := fun x => ((sortByLe_perm _ l).map key).count_eq x
  rcases firstDupBy_min htot hanti hs hfd with ⟨hk, hc, hm⟩
  exact ⟨hk, by rw [← hcnt]; exact hc, fun x hx => hm x (by rw [hcnt]; exact hx)⟩

/-- Lexicographic comparison of character lists, the order in which Rust's
`str: Ord` compares the canonical expression keys during
`sort_unstable_by_key` (code-point order coincides with UTF-8 byte order);
defined by structural recursion so concrete instances evaluate. -/
def listLeB : List Char → List Char → Bool
  | [], _ => true
  | _ :: _, [] => false
  | a :: as, b :: bs => if a < b then true else if b < a then false else listLeB as bs

/-- Lexicographic order on strings, via their character lists. -/
def strLeB (a b : String) : Bool := listLeB a.data b.data

theorem listLeB_total : ∀ as bs, listLeB as bs = true ∨ listLeB bs as = true
  | [], _ => Or.inl rfl
  | _ :: _, [] => Or.inr rfl
  | a :: as, b :: bs => by
    rcases lt_trichotomy a b with h | h | h
    · left; simp [listLeB, h]
    · subst h
      rcases listLeB_total as bs with h2 | h2
      · left; simp [listLeB, lt_irrefl, h2]
      · right; simp [listLeB, lt_irrefl, h2]
    · right; simp [listLeB, h]

theorem listLeB_trans : ∀ as bs cs, listLeB as bs = true → listLeB bs cs = true →
    listLeB as cs = true
  | [], _, _ => by simp [listLeB]
  | _ :: _, [], _ => by simp [listLeB]
  | _ :: _, _ :: _, [] => by simp [listLeB]
  | a :: as, b :: bs, c :: cs => by
    intro h1 h2
    rcases lt_trichotomy a b with hab | hab | hab
    · rcases lt_trichotomy b c with hbc | hbc | hbc
      · simp [listLeB, lt_trans hab hbc]
      · subst hbc; simp [listLeB, hab]
      · simp [listLeB, hbc, lt_asymm hbc] at h2
    · subst hab
      rcases lt_trichotomy a c with hbc | hbc | hbc
      · simp [listLeB, hbc]
      · subst hbc
        simp [listLeB, lt_irrefl] at h1 h2 ⊢
        exact listLeB_trans as bs cs h1 h2
      · simp [listLeB, hbc, lt_asymm hbc] at h2
    · simp [listLeB, hab, lt_asymm hab] at h1

theorem listLeB_antisymm : ∀ as bs, listLeB as bs = true → listLeB bs as = true → as = bs
  | [], [] => by simp
  | [], _ :: _ => by simp [listLeB]
  | _ :: _, [] => by simp [listLeB]
  | a :: as, b :: bs => by
    intro h1 h2
    rcases lt_trichotomy a b with hab | hab | hab
    · simp [listLeB, hab, lt_asymm hab] at h2
    · subst hab
      simp [listLeB, lt_irrefl] at h1 h2
      rw [listLeB_antisymm as bs h1 h2]
    · simp [listLeB, hab, lt_asymm hab] at h1

theorem strLeB_total (a b : String) : strLeB a b = true ∨ strLeB b a = true :=
  listLeB_total a.data b.data

theorem strLeB_trans (a b c : String) (h1 : strLeB a b = true) (h2 : strLeB b c = true) :
    strLeB a c = true :=
  listLeB_trans a.data b.data c.data h1 h2

theorem strLeB_antisymm (a b : String) (h1 : strLeB a b = true) (h2 : strLeB b a = true) :
    a = b := by
  cases a with
  | mk da =>
    cases b with
    | mk db => exact congrArg String.mk (listLeB_antisymm da db h1 h2)

/-! The sort-and-scan rules: `UniqueCheckRule` from
`src/rules/table_rules/unique_check_rule.rs` and `UniqueUniqueIndex` from
`src/rules/table_rules/unique_unique_index.rs`. -/

/-- The table's check constraints sorted by canonical expression
(`constraints.sort_unstable_by_key(|c| c.expression(database))`). -/
def UniqueCheckRule.sortedConstraints (table : Table) : List CheckConstraint :=
  sortByLe (fun c1 c2 => strLeB c1.expression c2.expression) table.check_constraints

/-- `UniqueCheckRule::validate_table`: sort the table's check constraints by
expression, scan adjacent windows; at the first pair with equal expressions
build the fixed diagnostic and return a Table error carrying the table,
otherwise succeed. -/
def UniqueCheckRule.validate_table (_database : Database) (table : Table) :
    Except Error Unit :=
  match firstDupBy CheckConstraint.expression (UniqueCheckRule.sortedConstraints table) with
  | [] => Except.ok ()
  | _ :: _ =>
    Except.error (Error.Table table (unwrapOr (buildRuleErrorInfo "UniqueCheckConstraint"
      table.table_name
      ("Table '" ++ table.table_name ++ "' has non-unique check constraints")
      (some "Ensure all check constraints in the table are unique")) poisonedRuleInfo))

/-- The expression of `window[0]` at the window where the scan of the sorted
check constraints stops (the detected collision), when one exists. -/
def UniqueCheckRule.detectedExpression (table : Table) : Option String :=
  (firstDupBy CheckConstraint.expression (UniqueCheckRule.sortedConstraints table)).head?.map
    CheckConstraint.expression

/-- The table's unique indices sorted by expression. -/
def UniqueUniqueIndex.sortedIndices (table : Table) : List UniqueIndex :=
  sortByLe (fun c1 c2 => strLeB c1.expression c2.expression) table.unique_indices

/-- `UniqueUniqueIndex::validate_table`: the same sort-and-scan over the
table's unique indices; the duplicate expression (`window[0]`) is quoted in
the message, built through the `ConstraintErrorInfo` builder, and wrapped in
the entity-less Table error of the constraints generation. -/
def UniqueUniqueIndex.validate_table (_database : Database) (table : Table) :
    Except ConstraintError Unit :=
  match firstDupBy UniqueIndex.expression (UniqueUniqueIndex.sortedIndices table) with
  | [] => Except.ok ()
  | w :: _ =>
    Except.error (ConstraintError.Table (unwrapOr (buildConstraintErrorInfo
      "UniqueUniqueIndex" table.table_name
      ("Table '" ++ table.table_name ++ "' has non-unique unique index on columns: " ++
        w.expression)
      (some "Ensure all unique index in the table are unique")) poisonedConstraintInfo))

theorem uniqueCheck_scan_nil_iff (table : Table) :
    firstDupBy CheckConstraint.expression (UniqueCheckRule.sortedConstraints table) = [] ↔
      (table.check_constraints.map CheckConstraint.expression).Nodup :=
  sortScan_nil_iff CheckConstraint.expression strLeB strLeB_total strLeB_trans
    strLeB_antisymm table.check_constraints

theorem uniqueCheck_ok_iff (database : Database) (table : Table) :
    UniqueCheckRule.validate_table database table = Except.ok () ↔
      (table.check_constraints.map CheckConstraint.expression).Nodup := by
  rw [← uniqueCheck_scan_nil_iff]
  unfold UniqueCheckRule.validate_table
  cases firstDupBy CheckConstraint.expression (UniqueCheckRule.sortedConstraints table) <;> simp

theorem uniqueIndex_scan_nil_iff (table : Table) :
    firstDupBy UniqueIndex.expression (UniqueUniqueIndex.sortedIndices table) = [] ↔
      (table.unique_indices.map UniqueIndex.expression).Nodup :=
  sortScan_nil_iff UniqueIndex.expression strLeB strLeB_total strLeB_trans
    strLeB_antisymm table.unique_indices

theorem uniqueIndex_ok_iff (database : Database) (table : Table) :
    UniqueUniqueIndex.validate_table database table = Except.ok () ↔
      (table.unique_indices.map UniqueIndex.expression).Nodup := by
  rw [← uniqueIndex_scan_nil_iff]
  unfold UniqueUniqueIndex.validate_table
  cases firstDupBy UniqueIndex.expression (UniqueUniqueIndex.sortedIndices table) <;> simp

/-- C4: the check-constraint uniqueness rule returns a Table-kind error
carrying the table exactly when two of the table's check constraints have
equal canonical expression strings (equivalently, it succeeds exactly when
the expressions are pairwise distinct), and the collision at which the
sorted-adjacent scan stops is the lexicographically least duplicated
expression. -/
theorem unique_check_rule_correct (database : Database) (table : Table) :
    (UniqueCheckRule.validate_table database table = Except.ok () ↔
      (table.check_constraints.map CheckConstraint.expression).Nodup) ∧
    (¬ (table.check_constraints.map CheckConstraint.expression).Nodup →
      ∃ info, UniqueCheckRule.validate_table database table =
        Except.error (Error.Table table info)) ∧
    (¬ (table.check_constraints.map CheckConstraint.expression).Nodup →
      ∃ e, UniqueCheckRule.detectedExpression table = some e) ∧
    (∀ e, UniqueCheckRule.detectedExpression table = some e →
      2 ≤ ((table.check_constraints.map CheckConstraint.expression).count e) ∧
        ∀ x, 2 ≤ ((table.check_constraints.map CheckConstraint.expression).count x) →
          strLeB e x = true) := by
  refine ⟨uniqueCheck_ok_iff database table, ?_, ?_, ?_⟩
  · intro hnd
    have hne : firstDupBy CheckConstraint.expression
        (UniqueCheckRule.sortedConstraints table) ≠ [] :=
      fun h => hnd ((uniqueCheck_scan_nil_iff table).mp h)
    unfold UniqueCheckRule.validate_table
    rcases hfd : firstDupBy CheckConstraint.expression
        (UniqueCheckRule.sortedConstraints table) with _ | ⟨g, gs⟩
    · exact absurd hfd hne
    · exact ⟨_, rfl⟩
  · intro hnd
    have hne : firstDupBy CheckConstraint.expression
        (UniqueCheckRule.sortedConstraints table) ≠ [] :=
      fun h => hnd ((uniqueCheck_scan_nil_iff table).mp h)
    unfold UniqueCheckRule.detectedExpression
    rcases hfd : firstDupBy CheckConstraint.expression
        (UniqueCheckRule.sortedConstraints table) with _ | ⟨g, gs⟩
    · exact absurd hfd hne
    · exact ⟨g.expression, rfl⟩
  · intro e hdet
    unfold UniqueCheckRule.detectedExpression at hdet
    rcases firstDupBy_shape CheckConstraint.expression
        (UniqueCheckRule.sortedConstraints table) with hfd | ⟨g1, g2, hfd, _⟩
    · rw [hfd] at hdet
      exact absurd hdet (by simp)
    · rw [hfd] at hdet
      have he : g1.expression = e := by simpa using hdet
      rcases sortScan_min CheckConstraint.expression strLeB strLeB_total strLeB_trans
          strLeB_antisymm table.check_constraints hfd with ⟨_, hc, hm⟩
      rw [he] at hc hm
      exact ⟨hc, hm⟩

/-- Witness for C4: a table with two identical `id > 0` check constraints
errs with a Table-kind error naming the table, the detected collision being
`id > 0`; a table with distinct expressions passes. -/
theorem unique_check_rule_correct_witness :
    (∃ info, UniqueCheckRule.validate_table ⟨[]⟩
        ⟨"t", [], [], [⟨"id > 0"⟩, ⟨"id > 0"⟩], [], [], true⟩ =
      Except.error (Error.Table ⟨"t", [], [], [⟨"id > 0"⟩, ⟨"id > 0"⟩], [], [], true⟩ info)) ∧
    UniqueCheckRule.validate_table ⟨[]⟩
        ⟨"t", [], [], [⟨"id > 0"⟩, ⟨"id < 100"⟩], [], [], true⟩ = Except.ok () ∧
    (2 ≤ (([⟨"id > 0"⟩, ⟨"id > 0"⟩] : List CheckConstraint).map
        CheckConstraint.expression).count "id > 0") := by
  refine ⟨?_, ?_, ?_⟩
  · exact (unique_check_rule_correct ⟨[]⟩
      ⟨"t", [], [], [⟨"id > 0"⟩, ⟨"id > 0"⟩], [], [], true⟩).2.1 (by decide)
  · exact (unique_check_rule_correct ⟨[]⟩
      ⟨"t", [], [], [⟨"id > 0"⟩, ⟨"id < 100"⟩], [], [], true⟩).1.mpr (by decide)
  · exact ((unique_check_rule_correct ⟨[]⟩
      ⟨"t", [], [], [⟨"id > 0"⟩, ⟨"id > 0"⟩], [], [], true⟩).2.2.2 "id > 0" (by decide)).1

/-- Turns a rule outcome into its verdict. -/
def exceptOkB {ε α : Type} : Except ε α → Bool
  | Except.ok _ => true
  | Except.error _ => false

theorem exceptOkB_eq_of_ok_iff {ε ε2 : Type} (x : Except ε Unit) (y : Except ε2 Unit)
    (h : x = Except.ok () ↔ y = Except.ok ()) : exceptOkB x = exceptOkB y := by
  cases x with
  | ok v =>
    cases v
    cases y with
    | ok w => cases w; rfl
    | error e => exact absurd (h.mp rfl) (by simp)
  | error e =>
    cases y with
    | ok w =>
      cases w
      exact absurd (h.mpr rfl) (by simp)
    | error e2 => rfl

/-- C5: the sort-based duplicate-detection rules are insensitive to the
declaration order of the table's check constraints (respectively unique
indices): permuting the list leaves the success-or-error verdict unchanged. -/
theorem sort_rules_order_insensitive (database : Database) (table : Table)
    (l l2 : List CheckConstraint) (u u2 : List UniqueIndex)
    (hc : l.Perm l2) (hu : u.Perm u2) :
    exceptOkB (UniqueCheckRule.validate_table database
        { table with check_constraints := l }) =
      exceptOkB (UniqueCheckRule.validate_table database
        { table with check_constraints := l2 }) ∧
    exceptOkB (UniqueUniqueIndex.validate_table database
        { table with unique_indices := u }) =
      exceptOkB (UniqueUniqueIndex.validate_table database
        { table with unique_indices := u2 }) := by
  constructor
  · apply exceptOkB_eq_of_ok_iff
    rw [uniqueCheck_ok_iff, uniqueCheck_ok_iff]
    exact (hc.map CheckConstraint.expression).nodup_iff
  · apply exceptOkB_eq_of_ok_iff
    rw [uniqueIndex_ok_iff, uniqueIndex_ok_iff]
    exact (hu.map UniqueIndex.expression).nodup_iff

/-- Witness for C5: swapping the declaration order of two check constraints
(and of two unique indices) preserves the verdict. -/
theorem sort_rules_order_insensitive_witness :
    exceptOkB (UniqueCheckRule.validate_table ⟨[]⟩
        ⟨"t", [], [], [⟨"a"⟩, ⟨"b"⟩], [], [], true⟩) =
      exceptOkB (UniqueCheckRule.validate_table ⟨[]⟩
        ⟨"t", [], [], [⟨"b"⟩, ⟨"a"⟩], [], [], true⟩) ∧
    exceptOkB (UniqueUniqueIndex.validate_table ⟨[]⟩
        ⟨"t", [], [], [], [⟨"i"⟩, ⟨"i"⟩], [], true⟩) =
      exceptOkB (UniqueUniqueIndex.validate_table ⟨[]⟩
        ⟨"t", [], [], [], [⟨"i"⟩, ⟨"i"⟩], [], true⟩) := by
  have h := sort_rules_order_insensitive ⟨[]⟩ ⟨"t", [], [], [], [], [], true⟩
    [⟨"a"⟩, ⟨"b"⟩] [⟨"b"⟩, ⟨"a"⟩] [⟨"i"⟩, ⟨"i"⟩] [⟨"i"⟩, ⟨"i"⟩]
    (List.Perm.swap _ _ _) (List.Perm.refl _)
  exact h

/-! The foreign-key uniqueness rule `UniqueForeignKey` from
`src/constraints/table_constraints/unique_foreign_key.rs`. The 64-bit
signature is computed with `std::hash::DefaultHasher`, Rust standard-library
code external to this repository; the hasher is fed exactly the host-column
sequence (declaration order), the referenced table identity, and the
referenced-column sequence (declaration order) of each foreign key, so it is
embedded as a parameter `sig` over those three inputs. -/

/-- The combined hash of one foreign key: `host_columns`, `referenced_table`
and `referenced_columns` folded into one hasher and finished. -/
def fkSignature (sig : List Column → String → List Column → Nat) (fk : ForeignKey) : Nat :=
  sig fk.host_columns fk.referenced_table fk.referenced_columns

/-- The structural identity of a foreign key for duplicate purposes — the
exact data the hasher consumes: host-column list, referenced table,
referenced-column list. -/
def fkTriple (fk : ForeignKey) : List Column × String × List Column :=
  (fk.host_columns, fk.referenced_table, fk.referenced_columns)

/-- The `FOREIGN KEY (<host cols>) REFERENCES <table> (<ref cols>)` rendering
of one duplicate, as pushed into `fk_details`. -/
def fkDetail (fk : ForeignKey) : String :=
  "FOREIGN KEY (" ++ String.intercalate ", " (fk.host_columns.map Column.column_name) ++
    ") REFERENCES " ++ fk.referenced_table ++ " (" ++
    String.intercalate ", " (fk.referenced_columns.map Column.column_name) ++ ")"

/-- The `(hash, fk)` pairs sorted by hash:
`signatures_with_fks.sort_unstable_by_key(|(sig, _)| *sig)`. -/
def UniqueForeignKey.sortedSignatures (sig : List Column → String → List Column → Nat)
    (table : Table) : List (Nat × ForeignKey) :=
  sortByLe (fun p q => decide (p.1 ≤ q.1))
    (table.foreign_keys.map (fun fk => (fkSignature sig fk, fk)))

/-- `duplicate_fks`: both members of the first adjacent pair with equal
hashes in the sorted order (the loop pushes `fk1`, `fk2` and breaks), or
empty when no adjacent hashes coincide. -/
def UniqueForeignKey.duplicateFks (sig : List Column → String → List Column → Nat)
    (table : Table) : List ForeignKey :=
  (firstDupBy Prod.fst (UniqueForeignKey.sortedSignatures sig table)).map Prod.snd

/-- `fk_details`: the rendering of each collected duplicate. -/
def UniqueForeignKey.fkDetails (dups : List ForeignKey) : List String := dups.map fkDetail

/-- The detailed duplicate message built in the error branch. -/
def UniqueForeignKey.dupMessage (table_name : String) (dups : List ForeignKey) : String :=
  "Table '" ++ table_name ++ "' has " ++ toString dups.length ++
    " duplicate foreign key definitions:\n  - " ++
    String.intercalate "\n  - " (UniqueForeignKey.fkDetails dups) ++
    "\nBoth foreign keys reference the same columns and target table"

/-- The resolution text; `fk_details.first().unwrap()` is modelled by
`headD` with the poison default a separate theorem shows unreachable. -/
def UniqueForeignKey.dupResolution (table_name : String) (dups : List ForeignKey) : String :=
  "Remove one of the duplicate foreign key constraints from table '" ++ table_name ++
    "'. Keep only one: " ++ (UniqueForeignKey.fkDetails dups).headD "<unreachable>"

/-- The generic fallback branch of the error construction (guarded by
`duplicate_fks.is_empty()` inside the nonempty case — dead code in the
source, kept faithfully). -/
def UniqueForeignKey.fallbackInfo (table_name : String) : ConstraintErrorInfo :=
  unwrapOr (buildConstraintErrorInfo "UniqueForeignKey" table_name
    ("Table '" ++ table_name ++ "' has duplicate foreign keys")
    (some "Ensure all foreign keys in the table are unique")) poisonedConstraintInfo

/-- The detailed branch of the error construction. -/
def UniqueForeignKey.detailedInfo (table_name : String) (dups : List ForeignKey) :
    ConstraintErrorInfo :=
  unwrapOr (buildConstraintErrorInfo "UniqueForeignKey" table_name
    (UniqueForeignKey.dupMessage table_name dups)
    (some (UniqueForeignKey.dupResolution table_name dups))) poisonedConstraintInfo

/-- `let error = if duplicate_fks.is_empty() { fallback } else { detailed }`. -/
def UniqueForeignKey.errorInfo (table_name : String) (dups : List ForeignKey) :
    ConstraintErrorInfo :=
  if dups.isEmpty then UniqueForeignKey.fallbackInfo table_name
  else UniqueForeignKey.detailedInfo table_name dups

/-- `UniqueForeignKey::validate_table`: hash every foreign key's (host
columns, referenced table, referenced columns), sort the pairs by hash,
collect the first adjacent pair with equal hashes, and if any was collected
return the Table error with the constructed diagnostic, else succeed. -/
def UniqueForeignKey.validate_table (sig : List Column → String → List Column → Nat)
    (_database : Database) (table : Table) : Except ConstraintError Unit :=
  let duplicate_fks := UniqueForeignKey.duplicateFks sig table
  if !duplicate_fks.isEmpty then
    Except.error (ConstraintError.Table
      (UniqueForeignKey.errorInfo table.table_name duplicate_fks))
  else
    Except.ok ()

theorem natLeB_total (m n : Nat) : decide (m ≤ n) = true ∨ decide (n ≤ m) = true := by
  rcases Nat.le_total m n with h | h
  · left; exact decide_eq_true h
  · right; exact decide_eq_true h

theorem natLeB_trans (m n k : Nat) (h1 : decide (m ≤ n) = true) (h2 : decide (n ≤ k) = true) :
    decide (m ≤ k) = true :=
  decide_eq_true (Nat.le_trans (of_decide_eq_true h1) (of_decide_eq_true h2))

theorem natLeB_antisymm (m n : Nat) (h1 : decide (m ≤ n) = true)
    (h2 : decide (n ≤ m) = true) : m = n :=
  Nat.le_antisymm (of_decide_eq_true h1) (of_decide_eq_true h2)

theorem uniqueFK_scan_nil_iff (sig : List Column → String → List Column → Nat)
    (table : Table) :
    firstDupBy Prod.fst (UniqueForeignKey.sortedSignatures sig table) = [] ↔
      (table.foreign_keys.map (fkSignature sig)).Nodup := by
  have h := sortScan_nil_iff (Prod.fst : Nat × ForeignKey → Nat)
    (fun m n => decide (m ≤ n)) natLeB_total natLeB_trans natLeB_antisymm
    (table.foreign_keys.map (fun fk => (fkSignature sig fk, fk)))
  rw [List.map_map] at h
  exact h

theorem uniqueFK_ok_iff (sig : List Column → String → List Column → Nat)
    (database : Database) (table : Table) :
    UniqueForeignKey.validate_table sig database table = Except.ok () ↔
      (table.foreign_keys.map (fkSignature sig)).Nodup := by
  rw [← uniqueFK_scan_nil_iff sig table]
  unfold UniqueForeignKey.validate_table UniqueForeignKey.duplicateFks
  cases firstDupBy Prod.fst (UniqueForeignKey.sortedSignatures sig table) <;> simp

theorem fk_pair_duplicates (sig : List Column → String → List Column → Nat)
    (table : Table) (fk1 fk2 : ForeignKey)
    (h : table.foreign_keys = [fk1, fk2])
    (hsig : fkSignature sig fk1 = fkSignature sig fk2) :
    UniqueForeignKey.duplicateFks sig table = [fk1, fk2] := by
  unfold UniqueForeignKey.duplicateFks UniqueForeignKey.sortedSignatures
  rw [h]
  simp only [List.map_cons, List.map_nil, sortByLe, insertByLe, hsig]
  rw [if_pos (by simp)]
  rw [firstDupBy, if_pos rfl]
  rfl

theorem intercalate_pair (s a b : String) : String.intercalate s [a, b] = a ++ s ++ b := by
  simp [String.intercalate, String.intercalate.go]

/-- C6: foreign keys with the same host-column list, referenced table and
referenced-column list collide in signature and are flagged (validation
errs); when all signatures are pairwise distinct — in particular when every
foreign key differs from its siblings and no hash collision occurs — nothing
is flagged; and for a table holding exactly one duplicated pair the reported
error is the detailed diagnostic whose message renders both colliding foreign
keys with their host columns, referenced table and referenced columns. -/
theorem unique_foreign_key_correct (sig : List Column → String → List Column → Nat)
    (database : Database) (table : Table) :
    (¬ (table.foreign_keys.map fkTriple).Nodup →
      ∃ info, UniqueForeignKey.validate_table sig database table =
        Except.error (ConstraintError.Table info)) ∧
    ((table.foreign_keys.map (fkSignature sig)).Nodup →
      UniqueForeignKey.validate_table sig database table = Except.ok ()) ∧
    (∀ fk1 fk2, table.foreign_keys = [fk1, fk2] → fkTriple fk1 = fkTriple fk2 →
      UniqueForeignKey.validate_table sig database table =
        Except.error (ConstraintError.Table
          (UniqueForeignKey.detailedInfo table.table_name [fk1, fk2])) ∧
      UniqueForeignKey.dupMessage table.table_name [fk1, fk2] =
        "Table '" ++ table.table_name ++ "' has " ++ "2" ++
          " duplicate foreign key definitions:\n  - " ++ fkDetail fk1 ++ "\n  - " ++
          fkDetail fk2 ++ "\nBoth foreign keys reference the same columns and target table") := by
  refine ⟨?_, fun hnodup => (uniqueFK_ok_iff sig database table).mpr hnodup, ?_⟩
  · intro hnd
    have hns : ¬ (table.foreign_keys.map (fkSignature sig)).Nodup := by
      intro hsig
      apply hnd
      have heq : table.foreign_keys.map (fkSignature sig) =
          (table.foreign_keys.map fkTriple).map (fun t => sig t.1 t.2.1 t.2.2) := by
        rw [List.map_map]
        rfl
      rw [heq] at hsig
      exact hsig.of_map
    have hne : firstDupBy Prod.fst (UniqueForeignKey.sortedSignatures sig table) ≠ [] :=
      fun hh => hns ((uniqueFK_scan_nil_iff sig table).mp hh)
    unfold UniqueForeignKey.validate_table UniqueForeignKey.duplicateFks
    rcases hfd : firstDupBy Prod.fst (UniqueForeignKey.sortedSignatures sig table)
      with _ | ⟨g, gs⟩
    · exact absurd hfd hne
    · exact ⟨_, rfl⟩
  · intro fk1 fk2 h hT
    have hsig : fkSignature sig fk1 = fkSignature sig fk2 :=
      congrArg (fun t : List Column × String × List Column => sig t.1 t.2.1 t.2.2) hT
    have hdup := fk_pair_duplicates sig table fk1 fk2 h hsig
    constructor
    · unfold UniqueForeignKey.validate_table
      rw [hdup]
      simp [UniqueForeignKey.errorInfo]
    · unfold UniqueForeignKey.dupMessage UniqueForeignKey.fkDetails
      simp only [List.map_cons, List.map_nil]
      rw [intercalate_pair]
      have h2 : toString (([fk1, fk2] : List ForeignKey).length) = "2" := by
        show toString (2 : Nat) = "2"
        rfl
      rw [h2]
      simp [String.append_assoc]

/-- Witness for C6: two textually identical `FOREIGN KEY (id) REFERENCES
other (id)` declarations are flagged with the detailed diagnostic, while a
foreign key referencing a different table (distinct signatures) passes. -/
theorem unique_foreign_key_correct_witness :
    (∃ info, UniqueForeignKey.validate_table (fun _ _ _ => 0) ⟨[]⟩
        ⟨"t", [], [⟨[⟨"id"⟩], "other", [⟨"id"⟩]⟩, ⟨[⟨"id"⟩], "other", [⟨"id"⟩]⟩],
          [], [], [], true⟩ =
      Except.error (ConstraintError.Table info)) ∧
    UniqueForeignKey.validate_table (fun _ rt _ => rt.length) ⟨[]⟩
        ⟨"t", [], [⟨[⟨"id"⟩], "other", [⟨"id"⟩]⟩, ⟨[⟨"id"⟩], "written", [⟨"id"⟩]⟩],
          [], [], [], true⟩ = Except.ok () ∧
    UniqueForeignKey.validate_table (fun _ _ _ => 0) ⟨[]⟩
        ⟨"t", [], [⟨[⟨"id"⟩], "other", [⟨"id"⟩]⟩, ⟨[⟨"id"⟩], "other", [⟨"id"⟩]⟩],
          [], [], [], true⟩ =
      Except.error (ConstraintError.Table (UniqueForeignKey.detailedInfo "t"
        [⟨[⟨"id"⟩], "other", [⟨"id"⟩]⟩, ⟨[⟨"id"⟩], "other", [⟨"id"⟩]⟩])) := by
  refine ⟨?_, ?_, ?_⟩
  · exact (unique_foreign_key_correct (fun _ _ _ => 0) ⟨[]⟩
      ⟨"t", [], [⟨[⟨"id"⟩], "other", [⟨"id"⟩]⟩, ⟨[⟨"id"⟩], "other", [⟨"id"⟩]⟩],
        [], [], [], true⟩).1 (by decide)
  · exact (unique_foreign_key_correct (fun _ rt _ => rt.length) ⟨[]⟩
      ⟨"t", [], [⟨[⟨"id"⟩], "other", [⟨"id"⟩]⟩, ⟨[⟨"id"⟩], "written", [⟨"id"⟩]⟩],
        [], [], [], true⟩).2.1 (by decide)
  · exact ((unique_foreign_key_correct (fun _ _ _ => 0) ⟨[]⟩
      ⟨"t", [], [⟨[⟨"id"⟩], "other", [⟨"id"⟩]⟩, ⟨[⟨"id"⟩], "other", [⟨"id"⟩]⟩],
        [], [], [], true⟩).2.2 _ _ rfl rfl).1

/-- C7: foreign keys whose host and referenced column sequences are the same
sets listed in different orders are hashed in declaration order, so their
signatures may differ; whenever they do, the rule does not detect the two as
duplicates and validation succeeds. -/
theorem fk_permuted_columns_not_detected (sig : List Column → String → List Column → Nat)
    (database : Database) (table : Table) (fk1 fk2 : ForeignKey)
    (h : table.foreign_keys = [fk1, fk2])
    (_hhostPerm : fk1.host_columns.Perm fk2.host_columns)
    (_hhostNe : fk1.host_columns ≠ fk2.host_columns)
    (_hrefPerm : fk1.referenced_columns.Perm fk2.referenced_columns)
    (hsig : fkSignature sig fk1 ≠ fkSignature sig fk2) :
    UniqueForeignKey.validate_table sig database table = Except.ok () := by
  apply (uniqueFK_ok_iff sig database table).mpr
  rw [h]
  simp [hsig]

/-- Witness for C7: `(a, bb) REFERENCES other (c, d)` and
`(bb, a) REFERENCES other (d, c)` reference the same column sets in permuted
order, hash differently under a head-sensitive hasher, and are not flagged. -/
theorem fk_permuted_columns_not_detected_witness :
    ((⟨[⟨"a"⟩, ⟨"bb"⟩], "other", [⟨"c"⟩, ⟨"d"⟩]⟩ : ForeignKey).host_columns.Perm
      (⟨[⟨"bb"⟩, ⟨"a"⟩], "other", [⟨"d"⟩, ⟨"c"⟩]⟩ : ForeignKey).host_columns) ∧
    ((⟨[⟨"a"⟩, ⟨"bb"⟩], "other", [⟨"c"⟩, ⟨"d"⟩]⟩ : ForeignKey).host_columns ≠
      (⟨[⟨"bb"⟩, ⟨"a"⟩], "other", [⟨"d"⟩, ⟨"c"⟩]⟩ : ForeignKey).host_columns) ∧
    UniqueForeignKey.validate_table (fun hc _ _ => (hc.headD ⟨""⟩).column_name.length) ⟨[]⟩
        ⟨"t", [], [⟨[⟨"a"⟩, ⟨"bb"⟩], "other", [⟨"c"⟩, ⟨"d"⟩]⟩,
          ⟨[⟨"bb"⟩, ⟨"a"⟩], "other", [⟨"d"⟩, ⟨"c"⟩]⟩], [], [], [], true⟩ =
      Except.ok () :=
  ⟨by decide, by decide,
    fk_permuted_columns_not_detected (fun hc _ _ => (hc.headD ⟨""⟩).column_name.length) ⟨[]⟩
      ⟨"t", [], [⟨[⟨"a"⟩, ⟨"bb"⟩], "other", [⟨"c"⟩, ⟨"d"⟩]⟩,
        ⟨[⟨"bb"⟩, ⟨"a"⟩], "other", [⟨"d"⟩, ⟨"c"⟩]⟩], [], [], [], true⟩
      ⟨[⟨"a"⟩, ⟨"bb"⟩], "other", [⟨"c"⟩, ⟨"d"⟩]⟩ ⟨[⟨"bb"⟩, ⟨"a"⟩], "other", [⟨"d"⟩, ⟨"c"⟩]⟩
      rfl (by decide) (by decide) (by decide) (by decide)⟩

/-- C10: duplication is decided solely by equality of the computed
signatures, with no structural re-check after a hash match: two structurally
different foreign keys whose signatures collide are reported as duplicates
through the detailed error path. -/
theorem fk_hash_collision_reported (sig : List Column → String → List Column → Nat)
    (database : Database) (table : Table) (fk1 fk2 : ForeignKey)
    (h : table.foreign_keys = [fk1, fk2])
    (hne : fkTriple fk1 ≠ fkTriple fk2)
    (hsig : fkSignature sig fk1 = fkSignature sig fk2) :
    fk1 ≠ fk2 ∧
    UniqueForeignKey.validate_table sig database table =
      Except.error (ConstraintError.Table
        (UniqueForeignKey.detailedInfo table.table_name [fk1, fk2])) := by
  constructor
  · intro heq
    exact hne (congrArg fkTriple heq)
  · unfold UniqueForeignKey.validate_table
    rw [fk_pair_duplicates sig table fk1 fk2 h hsig]
    simp [UniqueForeignKey.errorInfo]

/-- Witness for C10: under a colliding hasher, the structurally different
`(a) REFERENCES t2 (b)` and `(b) REFERENCES t2 (a)` are reported as
duplicates. -/
theorem fk_hash_collision_reported_witness :
    (⟨[⟨"a"⟩], "t2", [⟨"b"⟩]⟩ : ForeignKey) ≠ ⟨[⟨"b"⟩], "t2", [⟨"a"⟩]⟩ ∧
    UniqueForeignKey.validate_table (fun _ _ _ => 0) ⟨[]⟩
        ⟨"t", [], [⟨[⟨"a"⟩], "t2", [⟨"b"⟩]⟩, ⟨[⟨"b"⟩], "t2", [⟨"a"⟩]⟩], [], [], [], true⟩ =
      Except.error (ConstraintError.Table (UniqueForeignKey.detailedInfo "t"
        [⟨[⟨"a"⟩], "t2", [⟨"b"⟩]⟩, ⟨[⟨"b"⟩], "t2", [⟨"a"⟩]⟩])) :=
  fk_hash_collision_reported (fun _ _ _ => 0) ⟨[]⟩
    ⟨"t", [], [⟨[⟨"a"⟩], "t2", [⟨"b"⟩]⟩, ⟨[⟨"b"⟩], "t2", [⟨"a"⟩]⟩], [], [], [], true⟩
    ⟨[⟨"a"⟩], "t2", [⟨"b"⟩]⟩ ⟨[⟨"b"⟩], "t2", [⟨"a"⟩]⟩ rfl (by decide) rfl

/-- C9: whenever the error-construction path of the foreign-key uniqueness
rule is entered, the collected duplicate list holds exactly two foreign keys,
so the inner fallback branch guarded by the list being empty is unreachable
(the produced diagnostic is always the detailed one); the
`fk_details.first()` unwrap always finds an element, and — under the entity
contract that a table name is a nonempty identifier — every builder unwrap on
the error path receives a success and never panics. -/
theorem fk_error_path_safe (sig : List Column → String → List Column → Nat)
    (table : Table) (hname : trimEmpty table.table_name = false) :
    (UniqueForeignKey.duplicateFks sig table = [] ∨
      ∃ g1 g2, UniqueForeignKey.duplicateFks sig table = [g1, g2]) ∧
    (∀ g1 g2, UniqueForeignKey.duplicateFks sig table = [g1, g2] →
      UniqueForeignKey.errorInfo table.table_name
          (UniqueForeignKey.duplicateFks sig table) =
        UniqueForeignKey.detailedInfo table.table_name
          (UniqueForeignKey.duplicateFks sig table) ∧
      (UniqueForeignKey.fkDetails (UniqueForeignKey.duplicateFks sig table)).head? =
        some (fkDetail g1) ∧
      buildConstraintErrorInfo "UniqueForeignKey" table.table_name
          (UniqueForeignKey.dupMessage table.table_name
            (UniqueForeignKey.duplicateFks sig table))
          (some (UniqueForeignKey.dupResolution table.table_name
            (UniqueForeignKey.duplicateFks sig table))) =
        Except.ok ⟨"UniqueForeignKey", table.table_name,
          UniqueForeignKey.dupMessage table.table_name
            (UniqueForeignKey.duplicateFks sig table),
          some (UniqueForeignKey.dupResolution table.table_name
            (UniqueForeignKey.duplicateFks sig table))⟩) := by
  constructor
  · unfold UniqueForeignKey.duplicateFks
    rcases firstDupBy_shape Prod.fst (UniqueForeignKey.sortedSignatures sig table)
      with hfd | ⟨g1, g2, hfd, _⟩
    · rw [hfd]
      exact Or.inl rfl
    · rw [hfd]
      exact Or.inr ⟨g1.2, g2.2, rfl⟩
  · intro g1 g2 hdup
    rw [hdup]
    refine ⟨?_, ?_, ?_⟩
    · simp [UniqueForeignKey.errorInfo]
    · simp [UniqueForeignKey.fkDetails]
    · apply buildConstraintErrorInfo_ok
      · decide
      · exact hname
      · unfold UniqueForeignKey.dupMessage
        apply trimEmpty_append_left
        apply trimEmpty_append_left
        apply trimEmpty_append_left
        apply trimEmpty_append_left
        apply trimEmpty_append_left
        apply trimEmpty_append_left
        decide
      · intro r hr
        injection hr with hr
        rw [← hr]
        unfold UniqueForeignKey.dupResolution
        apply trimEmpty_append_left
        apply trimEmpty_append_left
        apply trimEmpty_append_left
        decide

/-- Witness for C9 at a concrete duplicate pair: the error path takes the
detailed branch, first() is present, and the builder chain succeeds. -/
theorem fk_error_path_safe_witness :
    UniqueForeignKey.errorInfo "t"
        (UniqueForeignKey.duplicateFks (fun _ _ _ => 0)
          ⟨"t", [], [⟨[⟨"a"⟩], "o", [⟨"b"⟩]⟩, ⟨[⟨"b"⟩], "o", [⟨"a"⟩]⟩], [], [], [], true⟩) =
      UniqueForeignKey.detailedInfo "t"
        (UniqueForeignKey.duplicateFks (fun _ _ _ => 0)
          ⟨"t", [], [⟨[⟨"a"⟩], "o", [⟨"b"⟩]⟩, ⟨[⟨"b"⟩], "o", [⟨"a"⟩]⟩], [], [], [], true⟩) ∧
    (UniqueForeignKey.fkDetails (UniqueForeignKey.duplicateFks (fun _ _ _ => 0)
        ⟨"t", [], [⟨[⟨"a"⟩], "o", [⟨"b"⟩]⟩, ⟨[⟨"b"⟩], "o", [⟨"a"⟩]⟩], [], [], [], true⟩)).head? =
      some (fkDetail ⟨[⟨"a"⟩], "o", [⟨"b"⟩]⟩) := by
  have h := fk_error_path_safe (fun _ _ _ => 0)
    ⟨"t", [], [⟨[⟨"a"⟩], "o", [⟨"b"⟩]⟩, ⟨[⟨"b"⟩], "o", [⟨"a"⟩]⟩], [], [], [], true⟩ (by decide)
  have h2 := h.2 ⟨[⟨"a"⟩], "o", [⟨"b"⟩]⟩ ⟨[⟨"b"⟩], "o", [⟨"a"⟩]⟩ (by decide)
  exact ⟨h2.1, h2.2.1⟩

end SqlRules
